import Mathlib

/-!
Verification development for the crypto-dash market-data gateway
(`crypto-dash-backend`): a shallow embedding of the canonical data model,
the stream hub, the venue adapters' normalization and lifecycle logic, and
the WebSocket session layer, together with theorems settling the spec's
claims about them.

Sources embedded (paths relative to the repository root):
  crates/core/src/model.rs        canonical value types
  crates/core/src/normalize.rs    SymbolMapper, precision_from_tick_size
  crates/stream-hub/src/topics.rs Topic and Topic::key
  crates/stream-hub/src/hub.rs    StreamHubInner publish/subscribe/counts
  crates/exchanges/binance/src/adapter.rs  BinanceAdapter
  crates/exchanges/bybit/src/adapter.rs    BybitAdapter
  crates/api/src/ws/server.rs     handle_socket / handle_client_message

Conventions: Rust `String` is Lean `String`; `Decimal` (rust_decimal) is
modelled as `Rat` reached through an explicit string parser; fallible Rust
functions returning `anyhow::Result` become `Except String`; `Option` maps
to `Option`.  Async effects (socket writes, cache writes, logging) that the
claims do not mention are erased; where a claim depends on the outcome of a
network operation the outcome is passed in as an explicit argument.
-/

namespace CryptoDash

/-- Equality of `Except` values is decidable when it is on both sides;
used to evaluate the embedded fallible functions on concrete inputs. -/
instance {ε α : Type} [DecidableEq ε] [DecidableEq α] : DecidableEq (Except ε α) := fun x y =>
  match x, y with
  | Except.ok a, Except.ok b =>
      if h : a = b then Decidable.isTrue (by simp [h]) else Decidable.isFalse (by simp [h])
  | Except.ok _, Except.error _ => Decidable.isFalse (by simp)
  | Except.error _, Except.ok _ => Decidable.isFalse (by simp)
  | Except.error e, Except.error f =>
      if h : e = f then Decidable.isTrue (by simp [h]) else Decidable.isFalse (by simp [h])

/-- Market category for a trading instrument (`MarketType`, model.rs). -/
inductive MarketType where
  | spot
  | perpetual
deriving DecidableEq, Repr

/-- Market data channel types (`ChannelType`, model.rs). -/
inductive ChannelType where
  | ticker
  | orderBook
deriving DecidableEq, Repr

/-- Exchange identifier newtype (`ExchangeId`, model.rs); `as_str` is the
identity under this encoding. -/
abbrev ExchangeId := String

/-- Normalized symbol representation (`Symbol`, model.rs). -/
structure Symbol where
  base : String
  quote : String
deriving DecidableEq, Repr

/-- `Symbol::canonical`: the canonical `BASE-QUOTE` form. -/
def Symbol.canonical (s : Symbol) : String :=
  s.base ++ "-" ++ s.quote

/-- Subscription channel specification (`Channel`, model.rs). -/
structure Channel where
  channel_type : ChannelType
  exchange : ExchangeId
  market_type : MarketType
  symbol : Symbol
  depth : Option Nat
deriving DecidableEq, Repr

/-- Topic key for routing messages in the stream hub (`Topic`, topics.rs). -/
structure Topic where
  channel_type : ChannelType
  exchange : ExchangeId
  market_type : MarketType
  symbol : Symbol
deriving DecidableEq, Repr

/-- `Topic::ticker` constructor (topics.rs). -/
def Topic.ticker (exchange : ExchangeId) (market_type : MarketType) (symbol : Symbol) : Topic :=
  ⟨ChannelType.ticker, exchange, market_type, symbol⟩

/-- `Topic::orderbook` constructor (topics.rs). -/
def Topic.orderbook (exchange : ExchangeId) (market_type : MarketType) (symbol : Symbol) : Topic :=
  ⟨ChannelType.orderBook, exchange, market_type, symbol⟩

/-- `Topic::from_channel` (topics.rs). -/
def Topic.from_channel (c : Channel) : Topic :=
  ⟨c.channel_type, c.exchange, c.market_type, c.symbol⟩

/-- The channel segment of `Topic::key` (topics.rs, lines 50-53). -/
def channelSegment : ChannelType → String
  | ChannelType.ticker => "ticker"
  | ChannelType.orderBook => "orderbook"

/-- The market segment of `Topic::key` (topics.rs, lines 54-57). -/
def marketSegment : MarketType → String
  | MarketType.spot => "spot"
  | MarketType.perpetual => "perpetual"

/-- `Topic::key` (topics.rs): the string `kind:venue:market:base-quote`. -/
def Topic.key (t : Topic) : String :=
  channelSegment t.channel_type ++ ":" ++ t.exchange ++ ":" ++
    marketSegment t.market_type ++ ":" ++ t.symbol.canonical

/-- Strip factors of ten shared between the mantissa and the scale, so a
decimal value has one canonical representation. -/
def decNormalize (num : Int) : Nat → Int × Nat
  | 0 => (num, 0)
  | s + 1 => if num % 10 = 0 then decNormalize (num / 10) s else (num, s + 1)

/-- `rust_decimal::Decimal`, modelled by its value `num / 10 ^ scale` in
lowest-scale form: `Decimal` compares numerically (`1.0 == 1.00`), and on
normal forms that numeric equality is exactly structural equality. -/
structure Dec where
  num : Int
  scale : Nat
deriving DecidableEq, Repr

/-- Build a decimal value in normal form from a raw mantissa and scale. -/
def Dec.ofParts (num : Int) (scale : Nat) : Dec :=
  let p := decNormalize num scale
  ⟨p.1, p.2⟩

/-- Price level in order book (`PriceLevel`, model.rs). -/
structure PriceLevel where
  price : Dec
  quantity : Dec
deriving DecidableEq, Repr

/-- Live ticker data (`Ticker`, model.rs).  The `chrono` timestamp is
modelled by its milliseconds value. -/
structure Ticker where
  timestamp : Int
  exchange : ExchangeId
  market_type : MarketType
  symbol : Symbol
  bid : Dec
  ask : Dec
  last : Dec
  bid_size : Dec
  ask_size : Dec
deriving DecidableEq, Repr

/-- Order book snapshot (`OrderBookSnapshot`, model.rs). -/
structure OrderBookSnapshot where
  timestamp : Int
  exchange : ExchangeId
  market_type : MarketType
  symbol : Symbol
  bids : List PriceLevel
  asks : List PriceLevel
  checksum : Option String
deriving DecidableEq, Repr

/-- Order book delta update (`OrderBookDelta`, model.rs). -/
structure OrderBookDelta where
  timestamp : Int
  exchange : ExchangeId
  market_type : MarketType
  symbol : Symbol
  bids_upserts : List PriceLevel
  asks_upserts : List PriceLevel
  deletes : Option (List Dec)
deriving DecidableEq, Repr

/-- WebSocket message types sent to clients (`StreamMessage`, model.rs). -/
inductive StreamMessage where
  | ticker (t : Ticker)
  | orderBookSnapshot (s : OrderBookSnapshot)
  | orderBookDelta (d : OrderBookDelta)
  | info (message : String)
  | error (message : String)
deriving DecidableEq, Repr

/-- WebSocket operations from clients (`ClientMessage`, model.rs). -/
inductive ClientMessage where
  | subscribe (channels : List Channel)
  | unsubscribe (channels : List Channel)
  | ping
deriving DecidableEq, Repr

/-- Everything after the first occurrence of `c`, if any: models
`tick_size.find('.')` followed by slicing at `decimal_pos + 1`
(normalize.rs, lines 148-149; the needle is one ASCII byte so byte and
character positions agree). -/
def afterFirst (c : Char) : List Char → Option (List Char)
  | [] => none
  | x :: xs => if x = c then some xs else afterFirst c xs

/-- `precision_from_tick_size` (normalize.rs, lines 143-173).  The function
never returns an error; the `Except` mirrors the Rust `Result` signature. -/
def precision_from_tick_size (tick_size : String) : Except String Nat :=
  if tick_size = "0" ∨ tick_size = "" then
    Except.ok 0
  else
    match afterFirst '.' tick_size.data with
    | some decimal_part =>
        let trailing_zeros := (decimal_part.takeWhile (fun c => c == '0')).length
        match (decimal_part.drop trailing_zeros).find? (fun c => c != '0') with
        | some first_non_zero =>
            if first_non_zero = '1' then Except.ok decimal_part.length
            else Except.ok (trailing_zeros + 1)
        | none => Except.ok decimal_part.length
    | none => Except.ok 0

/-- Association-list lookup keyed by strings; models `DashMap::get`
(hub.rs).  The map's iteration order never matters: it is only read
through this lookup. -/
def assocFind {α : Type} (k : String) : List (String × α) → Option α
  | [] => none
  | (k2, v) :: rest => if k2 = k then some v else assocFind k rest

/-- Association-list in-place update of the entry at `k`, if present;
models mutating a `DashMap` entry. -/
def assocUpdate {α : Type} (k : String) (f : α → α) : List (String × α) → List (String × α)
  | [] => []
  | (k2, v) :: rest =>
      if k2 = k then (k2, f v) :: rest else (k2, v) :: assocUpdate k f rest

/-- `tokio::sync::broadcast` channel state: the number of attached
receivers and the log of accepted messages.  `send` appends to the log
when at least one receiver exists and returns an (ignored) error
otherwise. -/
structure BroadcastChannel (α : Type) where
  receiverCount : Nat
  log : List α
deriving Repr

/-- `CHANNEL_CAPACITY` (hub.rs, line 9). -/
def channelCapacity : Nat := 1000

/-- `broadcast::Sender::send`: with no receivers the message is dropped
and the `Err` is swallowed by the caller (hub.rs, lines 113-124 and
128-139); with receivers it is appended to the channel log. -/
def broadcastSend {α : Type} (ch : BroadcastChannel α) (m : α) : BroadcastChannel α :=
  if ch.receiverCount > 0 then { ch with log := ch.log ++ [m] } else ch

/-- `StreamHubInner` (hub.rs): per-topic broadcast channels keyed by
`Topic::key`, plus the global firehose channel. -/
structure StreamHub where
  topics : List (String × BroadcastChannel StreamMessage)
  global : BroadcastChannel (Topic × StreamMessage)
deriving Repr

/-- `StreamHub::new` (hub.rs): no topics, a fresh global channel. -/
def StreamHub.new : StreamHub :=
  { topics := [], global := { receiverCount := 0, log := [] } }

/-- `StreamHubInner::publish` (hub.rs, lines 108-140): send to the topic
channel if one exists, then send to the global channel; both send errors
are logged and swallowed. -/
def StreamHub.publish (h : StreamHub) (t : Topic) (m : StreamMessage) : StreamHub :=
  let topic_key := Topic.key t
  let topics :=
    match assocFind topic_key h.topics with
    | some _ => assocUpdate topic_key (fun ch => broadcastSend ch m) h.topics
    | none => h.topics
  { topics := topics, global := broadcastSend h.global (t, m) }

/-- `SubscriberHandle` (hub.rs): the receiver is modelled by its position
in the topic channel's log (a fresh receiver starts at the current end). -/
structure SubscriberHandle where
  topic : Topic
  pos : Nat
deriving Repr

/-- `StreamHubInner::subscribe` (hub.rs, lines 142-167): lazily create
the per-topic channel via `entry().or_insert_with`, then attach a
receiver. -/
def StreamHub.subscribe (h : StreamHub) (t : Topic) : StreamHub × SubscriberHandle :=
  let topic_key := Topic.key t
  match assocFind topic_key h.topics with
  | some ch =>
      let bumped := assocUpdate topic_key
        (fun c => { c with receiverCount := c.receiverCount + 1 }) h.topics
      ({ h with topics := bumped }, { topic := t, pos := ch.log.length })
  | none =>
      let fresh : BroadcastChannel StreamMessage := { receiverCount := 1, log := [] }
      ({ h with topics := (topic_key, fresh) :: h.topics }, { topic := t, pos := 0 })

/-- `GlobalSubscriberHandle` (hub.rs), modelled by its log position. -/
structure GlobalSubscriberHandle where
  pos : Nat
deriving Repr

/-- `StreamHubInner::subscribe_all` (hub.rs, lines 169-179). -/
def StreamHub.subscribe_all (h : StreamHub) : StreamHub × GlobalSubscriberHandle :=
  ({ h with global := { h.global with receiverCount := h.global.receiverCount + 1 } },
    { pos := h.global.log.length })

/-- `HubHandle::subscriber_count` (hub.rs, lines 44-50). -/
def StreamHub.subscriber_count (h : StreamHub) (t : Topic) : Nat :=
  match assocFind (Topic.key t) h.topics with
  | some ch => ch.receiverCount
  | none => 0

/-- `HubHandle::global_subscriber_count` (hub.rs, lines 40-42). -/
def StreamHub.global_subscriber_count (h : StreamHub) : Nat :=
  h.global.receiverCount

/-- Outcome of `broadcast::Receiver::recv`: a message, a lag report, or
channel closure (`RecvError::{Lagged, Closed}`). -/
inductive RecvResult (α : Type) where
  | event (m : α)
  | lagged (n : Nat)
  | closed
deriving DecidableEq, Repr

/-- `broadcast::Receiver::recv` against a channel log: a receiver more
than `channelCapacity` behind observes `Lagged(missed)` and skips to the
oldest retained message; otherwise the next message if one exists;
otherwise `Closed` when the sender is gone, else the call is still
pending (`none`). -/
def broadcastRecv {α : Type} (ch : BroadcastChannel α) (pos : Nat) (senderClosed : Bool) :
    Option (RecvResult α × Nat) :=
  if ch.log.length > pos + channelCapacity then
    some (RecvResult.lagged (ch.log.length - channelCapacity - pos),
      ch.log.length - channelCapacity)
  else
    match ch.log[pos]? with
    | some m => some (RecvResult.event m, pos + 1)
    | none => if senderClosed then some (RecvResult.closed, pos) else none

/-- Adapter `ws_clients` map: one optional live connection handle per
supported market (`HashMap<MarketType, Option<Arc<WsClient>>>` with both
keys always present, binance/bybit adapter.rs). -/
structure WsClients where
  spot : Option Unit
  perpetual : Option Unit
deriving DecidableEq, Repr

/-- Read the connection slot for a market. -/
def WsClients.get (c : WsClients) : MarketType → Option Unit
  | MarketType.spot => c.spot
  | MarketType.perpetual => c.perpetual

/-- Write the connection slot for a market. -/
def WsClients.set (c : WsClients) : MarketType → Option Unit → WsClients
  | MarketType.spot, v => { c with spot := v }
  | MarketType.perpetual, v => { c with perpetual := v }

/-- `BinanceAdapter::disconnect_if_no_subscribers` (binance/adapter.rs,
lines 125-153): with a hub handle present, when both the global and the
per-topic subscriber counts are zero, `entry.take()` clears the
connection slot for the topic's market and the client is closed. -/
def binanceDisconnectIfNoSubscribers (hub : Option StreamHub) (clients : WsClients)
    (t : Topic) : WsClients :=
  let should_disconnect :=
    match hub with
    | some h =>
        StreamHub.global_subscriber_count h == 0 && StreamHub.subscriber_count h t == 0
    | none => false
  if should_disconnect then clients.set t.market_type none else clients

/-- `BybitAdapter::disconnect_if_no_subscribers` (bybit/adapter.rs, lines
242-267); the body is identical to the Binance one. -/
def bybitDisconnectIfNoSubscribers (hub : Option StreamHub) (clients : WsClients)
    (t : Topic) : WsClients :=
  let should_disconnect :=
    match hub with
    | some h =>
        StreamHub.global_subscriber_count h == 0 && StreamHub.subscriber_count h t == 0
    | none => false
  if should_disconnect then clients.set t.market_type none else clients

/-- Split a character list at the first occurrence of `c`, returning the
parts before and after it. -/
def splitAtFirst (c : Char) : List Char → Option (List Char × List Char)
  | [] => none
  | x :: xs =>
      if x = c then some ([], xs)
      else (splitAtFirst c xs).map (fun p => (x :: p.1, p.2))

/-- The numeric value of a digit string. -/
def digitsToNat (cs : List Char) : Nat :=
  cs.foldl (fun acc c => acc * 10 + (c.toNat - '0'.toNat)) 0

/-- `rust_decimal::Decimal::from_str`, modelled as a map into `Dec`: an
optional sign, digits with at most one decimal point, at least one digit;
anything else fails.  (rust_decimal also caps the mantissa at 96 bits and
allows `_` separators; no exchange payload in the claims exercises
either, so the model omits them.) -/
def parseDecimal (s : String) : Option Dec :=
  let withSign : Bool × List Char :=
    match s.data with
    | '-' :: r => (true, r)
    | '+' :: r => (false, r)
    | r => (false, r)
  let neg := withSign.1
  let rest := withSign.2
  let signed : Nat → Int := fun v => if neg then -(v : Int) else (v : Int)
  match splitAtFirst '.' rest with
  | none =>
      if rest ≠ [] ∧ rest.all Char.isDigit then
        some (Dec.ofParts (signed (digitsToNat rest)) 0)
      else none
  | some (intPart, fracPart) =>
      let digits := intPart ++ fracPart
      if digits ≠ [] ∧ digits.all Char.isDigit then
        some (Dec.ofParts (signed (digitsToNat digits)) fracPart.length)
      else none

/-- `Decimal::from_str` lifted to the adapters' `Result` context (the
`?` operator); the error text stands in for rust_decimal's parse error. -/
def parseDec (s : String) : Except String Dec :=
  match parseDecimal s with
  | some v => Except.ok v
  | none => Except.error ("invalid decimal: " ++ s)

/-- Smallest millisecond timestamp `chrono::DateTime` can represent
(year -262143). -/
def chronoMinMillis : Int := -8334601228800000

/-- Largest millisecond timestamp `chrono::DateTime` can represent
(year 262142). -/
def chronoMaxMillis : Int := 8210266876799999

/-- `crypto_dash_core::time::from_millis` (time.rs):
`DateTime::from_timestamp_millis`, which succeeds exactly on chrono's
representable window; the resulting instant is identified with its
millisecond value. -/
def from_millis (millis : Int) : Option Int :=
  if chronoMinMillis ≤ millis ∧ millis ≤ chronoMaxMillis then some millis else none

/-- `SymbolMapper` (normalize.rs): the two direction maps always hold the
same pairs, so the model keeps one association list keyed by
`(exchange, exchange_symbol)`. -/
abbrev SymbolMapper := List ((String × String) × Symbol)

/-- `SymbolMapper::to_canonical` (normalize.rs, lines 37-41). -/
def mapperToCanonical : SymbolMapper → String → String → Option Symbol
  | [], _, _ => none
  | (k, v) :: rest, exchange, sym =>
      if k = (exchange, sym) then some v else mapperToCanonical rest exchange sym

/-- `SymbolMapper::default` = `new` + `load_defaults` (normalize.rs,
lines 51-106): four majors for each venue. -/
def defaultSymbolMapper : SymbolMapper :=
  [(("binance", "BTCUSDT"), ⟨"BTC", "USDT"⟩),
    (("binance", "ETHUSDT"), ⟨"ETH", "USDT"⟩),
    (("binance", "ADAUSDT"), ⟨"ADA", "USDT"⟩),
    (("binance", "SOLUSDT"), ⟨"SOL", "USDT"⟩),
    (("bybit", "BTCUSDT"), ⟨"BTC", "USDT"⟩),
    (("bybit", "ETHUSDT"), ⟨"ETH", "USDT"⟩),
    (("bybit", "ADAUSDT"), ⟨"ADA", "USDT"⟩),
    (("bybit", "SOLUSDT"), ⟨"SOL", "USDT"⟩)]

/-- `str::ends_with` on the character data (the needles in play are
ASCII, so byte and character suffixes agree). -/
def strEndsWith (s suffix : String) : Bool :=
  List.isSuffixOf suffix.data s.data

/-- `&s[..s.len() - n]` for an ASCII tail of `n` bytes: drop the last `n`
characters. -/
def strDropRight (s : String) (n : Nat) : String :=
  String.mk (s.data.take (s.data.length - n))

/-- `BinanceAdapter::parse_symbol` (binance/adapter.rs, lines 294-319):
consult the pre-populated mapper, then strip one of the suffixes
`USDT, USDC, TUSD, BTC, ETH` in that order, else error. -/
def binanceParseSymbol (mapper : SymbolMapper) (binance_symbol : String) :
    Except String Symbol :=
  match mapperToCanonical mapper "binance" binance_symbol with
  | some symbol => Except.ok symbol
  | none =>
      if strEndsWith binance_symbol "USDT" then
        Except.ok ⟨strDropRight binance_symbol 4, "USDT"⟩
      else if strEndsWith binance_symbol "USDC" then
        Except.ok ⟨strDropRight binance_symbol 4, "USDC"⟩
      else if strEndsWith binance_symbol "TUSD" then
        Except.ok ⟨strDropRight binance_symbol 4, "TUSD"⟩
      else if strEndsWith binance_symbol "BTC" then
        Except.ok ⟨strDropRight binance_symbol 3, "BTC"⟩
      else if strEndsWith binance_symbol "ETH" then
        Except.ok ⟨strDropRight binance_symbol 3, "ETH"⟩
      else
        Except.error ("Unsupported symbol format: " ++ binance_symbol)

/-- The preprocessing in `BybitAdapter::parse_symbol` (bybit/adapter.rs,
lines 270-277): keep the part before the first `_` or `.`, drop `/`,
uppercase (venue symbols are ASCII, so per-character uppercasing matches
`str::to_uppercase`). -/
def bybitPreprocess (s : String) : String :=
  let primary := s.data.takeWhile (fun c => !(c == '_' || c == '.'))
  let sanitized := primary.filter (fun c => !(c == '/'))
  String.mk (sanitized.map Char.toUpper)

/-- `BybitAdapter::parse_symbol` (bybit/adapter.rs, lines 269-296): after
preprocessing, strip one of `USDT, USDC, BUSD, TUSD, BTC, ETH, USD` in
that order, else error.  Bybit performs no mapper lookup. -/
def bybitParseSymbol (bybit_symbol : String) : Except String Symbol :=
  let upper := bybitPreprocess bybit_symbol
  if strEndsWith upper "USDT" then Except.ok ⟨strDropRight upper 4, "USDT"⟩
  else if strEndsWith upper "USDC" then Except.ok ⟨strDropRight upper 4, "USDC"⟩
  else if strEndsWith upper "BUSD" then Except.ok ⟨strDropRight upper 4, "BUSD"⟩
  else if strEndsWith upper "TUSD" then Except.ok ⟨strDropRight upper 4, "TUSD"⟩
  else if strEndsWith upper "BTC" then Except.ok ⟨strDropRight upper 3, "BTC"⟩
  else if strEndsWith upper "ETH" then Except.ok ⟨strDropRight upper 3, "ETH"⟩
  else if strEndsWith upper "USD" then Except.ok ⟨strDropRight upper 3, "USD"⟩
  else Except.error ("Unknown Bybit symbol format: " ++ bybit_symbol)

/-- Defined from the spec's words (§4.2 Symbol parsing), for comparison
with the adapters' `parse_symbol`: strip the first matching known quote
suffix in the given ordered list; everything before it is the base. -/
def stripKnownQuote : List String → String → Option Symbol
  | [], _ => none
  | q :: rest, s =>
      if strEndsWith s q then some ⟨strDropRight s q.length, q⟩
      else stripKnownQuote rest s

/-- `BinanceTicker` (binance/types.rs), restricted to the fields
`handle_ticker` reads; the remaining 24hr-statistics fields (`p`, `w`,
`o`, `h`, `l`, `v`, `q`, trade ids, ...) are never consulted and are
omitted.  All are `#[serde(default)]` options except the symbol `s`. -/
structure BinanceTicker where
  event_time : Option Int
  s : String
  c : Option String
  b : Option String
  best_bid_qty : Option String
  a : Option String
  best_ask_qty : Option String
  statistics_close_time : Option Int
deriving DecidableEq, Repr

/-- `BybitTicker` (bybit/types.rs), restricted to the fields
`handle_ticker` reads; the remaining statistics fields are never
consulted and are omitted.  `lastPrice` defaults to the empty string,
everything else to `None`. -/
structure BybitTicker where
  symbol : String
  last_price : String
  bid1_price : Option String
  bid1_size : Option String
  ask1_price : Option String
  ask1_size : Option String
  bid_price : Option String
  bid_size : Option String
  ask_price : Option String
  ask_size : Option String
deriving DecidableEq, Repr

/-- `Option::filter(|v| !v.is_empty())` on an optional string. -/
def optNonEmpty : Option String → Option String
  | some v => if v = "" then none else some v
  | none => none

/-- The field-selection chain Bybit's `handle_ticker` repeats for each of
bid/ask price and size (bybit/adapter.rs, lines 140-166):
`primary.filter(non-empty).or_else(secondary.filter(non-empty)).unwrap_or(fallback)`. -/
def selectField (primary secondary : Option String) (fallback : String) : String :=
  match optNonEmpty primary with
  | some v => v
  | none =>
      match optNonEmpty secondary with
      | some v => v
      | none => fallback

/-- The event-millis choice in Binance's `handle_ticker`
(binance/adapter.rs, lines 158-161): `E`, else `C`, else the wall
clock. -/
def binanceEventMillis (t : BinanceTicker) (nowMillis : Int) : Int :=
  match t.event_time with
  | some v => v
  | none =>
      match t.statistics_close_time with
      | some v => v
      | none => nowMillis

/-- The ticker published by `BinanceAdapter::handle_ticker`
(binance/adapter.rs, lines 155-221): parse the symbol, derive the
timestamp from `E`, else `C`, else the wall clock (`nowMillis`), parse
the decimals, substituting the last price for a missing or empty best
bid/ask price and `"0"` for a missing best bid/ask quantity.  The cache
write, the publish and the idle-teardown check that follow are modelled
by `binanceOnTickerEvent`. -/
def binanceHandleTicker (mapper : SymbolMapper) (market_type : MarketType)
    (t : BinanceTicker) (nowMillis : Int) : Except String Ticker :=
  match binanceParseSymbol mapper t.s with
  | Except.error e => Except.error e
  | Except.ok symbol =>
  match from_millis (binanceEventMillis t nowMillis) with
  | none => Except.error ("Invalid timestamp: " ++ toString (binanceEventMillis t nowMillis))
  | some timestamp =>
  match parseDec (t.c.getD "0") with
  | Except.error e => Except.error e
  | Except.ok last_price =>
  match (match optNonEmpty t.b with
         | some v => parseDec v
         | none => Except.ok last_price) with
  | Except.error e => Except.error e
  | Except.ok bid_price =>
  match (match optNonEmpty t.a with
         | some v => parseDec v
         | none => Except.ok last_price) with
  | Except.error e => Except.error e
  | Except.ok ask_price =>
  match parseDec (t.best_bid_qty.getD "0") with
  | Except.error e => Except.error e
  | Except.ok bid_size =>
  match parseDec (t.best_ask_qty.getD "0") with
  | Except.error e => Except.error e
  | Except.ok ask_size =>
    Except.ok (Ticker.mk timestamp "binance" market_type symbol
      bid_price ask_price last_price bid_size ask_size)

/-- The ticker published by `BybitAdapter::handle_ticker`
(bybit/adapter.rs, lines 129-194): parse the symbol, validate the frame
timestamp, pick the bid/ask price as `bid1Price`, else `bidPrice`, else
`lastPrice` (empty strings count as absent), the sizes likewise with
default `"0"`, then parse all five decimals.  The cache write, the
publish and the idle-teardown check are modelled by
`bybitOnTickerEvent`. -/
def bybitHandleTicker (market_type : MarketType) (t : BybitTicker)
    (timestamp_ms : Nat) : Except String Ticker :=
  match bybitParseSymbol t.symbol with
  | Except.error e => Except.error e
  | Except.ok symbol =>
  match from_millis (timestamp_ms : Int) with
  | none => Except.error ("Invalid timestamp: " ++ toString timestamp_ms)
  | some timestamp =>
  match parseDec (selectField t.bid1_price t.bid_price t.last_price) with
  | Except.error e => Except.error e
  | Except.ok bid =>
  match parseDec (selectField t.ask1_price t.ask_price t.last_price) with
  | Except.error e => Except.error e
  | Except.ok ask =>
  match parseDec t.last_price with
  | Except.error e => Except.error e
  | Except.ok last =>
  match parseDec (selectField t.bid1_size t.bid_size "0") with
  | Except.error e => Except.error e
  | Except.ok bid_size_d =>
  match parseDec (selectField t.ask1_size t.ask_size "0") with
  | Except.error e => Except.error e
  | Except.ok ask_size_d =>
    Except.ok (Ticker.mk timestamp "bybit" market_type symbol
      bid ask last bid_size_d ask_size_d)

/-- The hub- and connection-state effects of
`BinanceAdapter::handle_ticker` after normalization (binance/adapter.rs,
lines 207-220): publish the ticker on its topic, then run
`disconnect_if_no_subscribers`.  The cache write has no observable
effect on the claims and is erased. -/
def binanceOnTickerEvent (hub : StreamHub) (clients : WsClients)
    (mapper : SymbolMapper) (market_type : MarketType) (t : BinanceTicker)
    (nowMillis : Int) : Except String (StreamHub × WsClients × Ticker) :=
  match binanceHandleTicker mapper market_type t nowMillis with
  | Except.error e => Except.error e
  | Except.ok out =>
      let topic := Topic.ticker "binance" market_type out.symbol
      let hub2 := StreamHub.publish hub topic (StreamMessage.ticker out)
      Except.ok (hub2, binanceDisconnectIfNoSubscribers (some hub2) clients topic, out)

/-- The hub- and connection-state effects of
`BybitAdapter::handle_ticker` after normalization (bybit/adapter.rs,
lines 180-193). -/
def bybitOnTickerEvent (hub : StreamHub) (clients : WsClients)
    (market_type : MarketType) (t : BybitTicker) (timestamp_ms : Nat) :
    Except String (StreamHub × WsClients × Ticker) :=
  match bybitHandleTicker market_type t timestamp_ms with
  | Except.error e => Except.error e
  | Except.ok out =>
      let topic := Topic.ticker "bybit" market_type out.symbol
      let hub2 := StreamHub.publish hub topic (StreamMessage.ticker out)
      Except.ok (hub2, bybitDisconnectIfNoSubscribers (some hub2) clients topic, out)

/-- `AppState` as the session layer sees it (state.rs): the set of venue
ids with a registered adapter.  Adapter behaviour behind
`subscribe`/`unsubscribe` is recorded as the list of invocations the
session makes; their `Result` is only logged by the session
(server.rs, lines 173-189 and 232-239), so it does not appear here. -/
structure AppStateModel where
  exchanges : List String
deriving DecidableEq, Repr

/-- Channel grouping by exchange id (server.rs, lines 144-155 and
215-222): a `HashMap<String, Vec<Channel>>` built by pushing each channel
onto its venue's bucket.  Bucket contents keep encounter order; the map's
iteration order is unspecified in Rust, so the model fixes
first-occurrence order and the theorems only state order-independent
facts. -/
def groupByExchange (channels : List Channel) : List (String × List Channel) :=
  let keys := channels.foldl
    (fun acc c => if c.exchange ∈ acc then acc else acc ++ [c.exchange]) []
  keys.map (fun ex => (ex, channels.filter (fun c => c.exchange == ex)))

/-- `handle_client_message` (server.rs, lines 128-267).  Returns the
adapter invocations made (venue id with its channel group; unknown
venues are skipped with only a `warn!`) and the `StreamMessage`s sent to
the client. -/
def handleClientMessage (st : AppStateModel) (message : ClientMessage) :
    List (String × List Channel) × List StreamMessage :=
  match message with
  | ClientMessage.subscribe channels =>
      let groups := groupByExchange channels
      let calls := groups.filter (fun g => st.exchanges.contains g.1)
      (calls,
        [StreamMessage.info ("Subscribed to " ++ toString channels.length ++
          " channels across " ++ toString groups.length ++ " exchanges")])
  | ClientMessage.unsubscribe channels =>
      let groups := groupByExchange channels
      let calls := groups.filter (fun g => st.exchanges.contains g.1)
      (calls,
        [StreamMessage.info ("Unsubscribed from " ++ toString channels.length ++
          " channels")])
  | ClientMessage.ping =>
      ([], [StreamMessage.info "Pong"])

/-- An inbound WebSocket frame as the session loop sees it (server.rs,
lines 70-120).  A text frame carries the outcome of
`serde_json::from_str::<ClientMessage>`, so an unparseable frame is
`text (Except.error e)` with `e` the serde error text. -/
inductive InFrame where
  | text (parsed : Except String ClientMessage)
  | close
  | ping
  | pong
  | binary
  | sockErr
deriving DecidableEq, Repr

/-- An outbound item written to the client socket: a serialized
`StreamMessage` text frame, or a pong control frame. -/
inductive OutItem where
  | msg (m : StreamMessage)
  | pong
deriving DecidableEq, Repr

/-- The inbound half of `handle_socket` (server.rs, lines 70-120), as a
function from the inbound frame sequence to the outbound items it
writes.  A parse failure sends one `Error` and keeps the loop running; a
close frame or a socket error ends it; binary frames and pongs are
ignored; writes are taken to succeed (a failed write only ends the loop
earlier). -/
def sessionLoop (st : AppStateModel) : List InFrame → List OutItem
  | [] => []
  | InFrame.text (Except.ok client_msg) :: rest =>
      ((handleClientMessage st client_msg).2.map OutItem.msg) ++ sessionLoop st rest
  | InFrame.text (Except.error e) :: rest =>
      OutItem.msg (StreamMessage.error ("Invalid message format: " ++ e)) ::
        sessionLoop st rest
  | InFrame.close :: _ => []
  | InFrame.ping :: rest => OutItem.pong :: sessionLoop st rest
  | InFrame.pong :: rest => sessionLoop st rest
  | InFrame.binary :: rest => sessionLoop st rest
  | InFrame.sockErr :: _ => []

/-- The outbound forwarder task of `handle_socket` (server.rs, lines
48-67), as a function from the sequence of hub receive outcomes to the
events it forwards: an `Ok` pair is serialized and sent, any receive
error (`Lagged` as well as `Closed`) logs and breaks the loop.  Writes
are taken to succeed. -/
def forwardLoop : List (RecvResult (Topic × StreamMessage)) → List (Topic × StreamMessage)
  | [] => []
  | RecvResult.event p :: rest => p :: forwardLoop rest
  | RecvResult.lagged _ :: _ => []
  | RecvResult.closed :: _ => []

/-- The number of `Error` events in a message list. -/
def countErrors (l : List StreamMessage) : Nat :=
  (l.filter (fun m => match m with
    | StreamMessage.error _ => true
    | _ => false)).length

/-- Network outcomes an adapter meets while subscribing, passed in
explicitly: whether a fresh WebSocket connection attempt succeeds,
whether a `send_text` on an existing connection succeeds, and whether
the resend after a reconnect succeeds. -/
structure NetEnv where
  connectOk : MarketType → Bool
  sendOk : MarketType → Bool
  resendOk : MarketType → Bool

/-- A control frame sent upstream, reduced to its operation name and its
stream/args list (the JSON envelope shapes are fixed per venue). -/
abbrev UpFrame := String × List String

/-- `BinanceAdapter::streams_from_channels` (binance/adapter.rs, lines
321-345): `<base><quote>` lowercased, suffixed `@ticker` or `@depth<N>`
with depth defaulting to 20. -/
def streamsFromChannels (channels : List Channel) : List String :=
  channels.map (fun c =>
    let symbol_str := c.symbol.base.toLower ++ c.symbol.quote.toLower
    match c.channel_type with
    | ChannelType.ticker => symbol_str ++ "@ticker"
    | ChannelType.orderBook => symbol_str ++ "@depth" ++ toString (c.depth.getD 20))

/-- `BybitAdapter::topics_from_channels` (bybit/adapter.rs, lines
298-318): `tickers.<BASE><QUOTE>` or `orderbook.1.<BASE><QUOTE>`. -/
def topicsFromChannels (channels : List Channel) : List String :=
  channels.map (fun c =>
    match c.channel_type with
    | ChannelType.ticker => "tickers." ++ c.symbol.base ++ c.symbol.quote
    | ChannelType.orderBook => "orderbook.1." ++ c.symbol.base ++ c.symbol.quote)

/-- Group channels by market type (`by_market` in both adapters'
`subscribe_internal`/`unsubscribe_internal`); as with
`groupByExchange`, the model fixes first-occurrence order for the
`HashMap` iteration. -/
def groupByMarket (channels : List Channel) : List (MarketType × List Channel) :=
  let keys := channels.foldl
    (fun acc c => if c.market_type ∈ acc then acc else acc ++ [c.market_type]) []
  keys.map (fun mk => (mk, channels.filter (fun c => c.market_type == mk)))

/-- `BinanceAdapter::ensure_connection` (binance/adapter.rs, lines
476-492): reuse a live client, else attempt a real connection, storing
the handle on success and propagating the error on failure. -/
def binanceEnsureConnection (env : NetEnv) (st : WsClients) (mk : MarketType) :
    Except String WsClients :=
  match st.get mk with
  | some _ => Except.ok st
  | none =>
      if env.connectOk mk then Except.ok (st.set mk (some ()))
      else Except.error "Binance connection failed"

/-- Per-market-group body of `BinanceAdapter::subscribe_internal`
(binance/adapter.rs, lines 509-532), folded over the groups; collects
the `SUBSCRIBE` frames actually sent. -/
def binanceSubGo (env : NetEnv) : WsClients → List (MarketType × List Channel) →
    List UpFrame → Except String (WsClients × List UpFrame)
  | st, [], acc => Except.ok (st, acc)
  | st, (mk, market_channels) :: rest, acc =>
      if market_channels.isEmpty then binanceSubGo env st rest acc
      else
        match binanceEnsureConnection env st mk with
        | Except.error e => Except.error e
        | Except.ok st2 =>
            if env.sendOk mk then
              binanceSubGo env st2 rest (acc ++ [("SUBSCRIBE", streamsFromChannels market_channels)])
            else Except.error "Binance send failed"

/-- `BinanceAdapter::subscribe_internal` (binance/adapter.rs, lines
493-535): empty channel lists return `Ok` before touching any
connection state. -/
def binanceSubscribeInternal (env : NetEnv) (st : WsClients)
    (channels : List Channel) : Except String (WsClients × List UpFrame) :=
  if channels.isEmpty then Except.ok (st, [])
  else binanceSubGo env st (groupByMarket channels) []

/-- Per-market-group body of `BinanceAdapter::unsubscribe_internal`
(binance/adapter.rs, lines 553-579): mocks are gone, so a missing client
is an error and a send failure propagates. -/
def binanceUnsubGo (env : NetEnv) : WsClients → List (MarketType × List Channel) →
    List UpFrame → Except String (WsClients × List UpFrame)
  | st, [], acc => Except.ok (st, acc)
  | st, (mk, market_channels) :: rest, acc =>
      if market_channels.isEmpty then binanceUnsubGo env st rest acc
      else
        match st.get mk with
        | some _ =>
            if env.sendOk mk then
              binanceUnsubGo env st rest (acc ++ [("UNSUBSCRIBE", streamsFromChannels market_channels)])
            else Except.error "Binance send failed"
        | none =>
            Except.error ("WebSocket client not connected for Binance " ++
              marketSegment mk ++ " market")

/-- `BinanceAdapter::unsubscribe_internal` (binance/adapter.rs, lines
537-582). -/
def binanceUnsubscribeInternal (env : NetEnv) (st : WsClients)
    (channels : List Channel) : Except String (WsClients × List UpFrame) :=
  if channels.isEmpty then Except.ok (st, [])
  else binanceUnsubGo env st (groupByMarket channels) []

/-- `BybitAdapter::reconnect_and_send` (bybit/adapter.rs, lines 213-240):
reconnect, store the new handle, resend; both failure modes surface to
the caller. -/
def bybitReconnectAndSend (env : NetEnv) (st : WsClients) (mk : MarketType) :
    Except String WsClients :=
  if env.connectOk mk then
    let st2 := st.set mk (some ())
    if env.resendOk mk then Except.ok st2 else Except.error "Bybit resend failed"
  else Except.error "Bybit reconnect failed"

/-- Per-market-group body of `BybitAdapter::subscribe_internal`
(bybit/adapter.rs, lines 499-540): send on the live client; on send
failure clear the slot and try one reconnect-and-resend; with no client,
reconnect-and-send directly. -/
def bybitSubGo (env : NetEnv) : WsClients → List (MarketType × List Channel) →
    List UpFrame → Except String (WsClients × List UpFrame)
  | st, [], acc => Except.ok (st, acc)
  | st, (mk, market_channels) :: rest, acc =>
      if market_channels.isEmpty then bybitSubGo env st rest acc
      else
        let frame : UpFrame := ("subscribe", topicsFromChannels market_channels)
        match st.get mk with
        | some _ =>
            if env.sendOk mk then bybitSubGo env st rest (acc ++ [frame])
            else
              match bybitReconnectAndSend env (st.set mk none) mk with
              | Except.ok st2 => bybitSubGo env st2 rest (acc ++ [frame])
              | Except.error e => Except.error e
        | none =>
            match bybitReconnectAndSend env st mk with
            | Except.ok st2 => bybitSubGo env st2 rest (acc ++ [frame])
            | Except.error e => Except.error e

/-- `BybitAdapter::subscribe_internal` (bybit/adapter.rs, lines
483-543): empty channel lists return `Ok` before touching any
connection state. -/
def bybitSubscribeInternal (env : NetEnv) (st : WsClients)
    (channels : List Channel) : Except String (WsClients × List UpFrame) :=
  if channels.isEmpty then Except.ok (st, [])
  else bybitSubGo env st (groupByMarket channels) []

/-- Per-market-group body of `BybitAdapter::unsubscribe_internal`
(bybit/adapter.rs, lines 561-597): a send failure clears the slot and
continues; a missing client only warns; neither is an error. -/
def bybitUnsubGo (env : NetEnv) : WsClients → List (MarketType × List Channel) →
    List UpFrame → Except String (WsClients × List UpFrame)
  | st, [], acc => Except.ok (st, acc)
  | st, (mk, market_channels) :: rest, acc =>
      if market_channels.isEmpty then bybitUnsubGo env st rest acc
      else
        match st.get mk with
        | some _ =>
            if env.sendOk mk then
              bybitUnsubGo env st rest (acc ++ [("unsubscribe", topicsFromChannels market_channels)])
            else bybitUnsubGo env (st.set mk none) rest acc
        | none => bybitUnsubGo env st rest acc

/-- `BybitAdapter::unsubscribe_internal` (bybit/adapter.rs, lines
545-600). -/
def bybitUnsubscribeInternal (env : NetEnv) (st : WsClients)
    (channels : List Channel) : Except String (WsClients × List UpFrame) :=
  if channels.isEmpty then Except.ok (st, [])
  else bybitUnsubGo env st (groupByMarket channels) []

/-- C8: `precision_from_tick_size` returns `Ok(3)` for `"0.001"`, `Ok(2)`
for `"0.01"`, `Ok(1)` for `"0.1"`, `Ok(0)` for `"1"`, `Ok(1)` for `"0.5"`,
and `Ok(5)` for `"0.00001"`. -/
theorem precision_from_tick_size_values :
    precision_from_tick_size "0.001" = Except.ok 3 ∧
    precision_from_tick_size "0.01" = Except.ok 2 ∧
    precision_from_tick_size "0.1" = Except.ok 1 ∧
    precision_from_tick_size "1" = Except.ok 0 ∧
    precision_from_tick_size "0.5" = Except.ok 1 ∧
    precision_from_tick_size "0.00001" = Except.ok 5 := by
  refine ⟨?_, ?_, ?_, ?_, ?_, ?_⟩ <;> decide

/-- Splitting a character list at a separator is unambiguous when the part
before the separator is separator-free. -/
theorem listSepInj (sep : Char) (a1 : List Char) : ∀ (a2 r1 r2 : List Char),
    sep ∉ a1 → sep ∉ a2 → a1 ++ sep :: r1 = a2 ++ sep :: r2 → a1 = a2 ∧ r1 = r2 := by
  induction a1 with
  | nil =>
    intro a2 r1 r2 _ h2 h
    cases a2 with
    | nil => simpa using h
    | cons b bs =>
      simp only [List.nil_append, List.cons_append, List.cons.injEq] at h
      exact absurd (h.1 ▸ List.mem_cons_self b bs) h2
  | cons x xs ih =>
    intro a2 r1 r2 h1 h2 h
    cases a2 with
    | nil =>
      simp only [List.cons_append, List.nil_append, List.cons.injEq] at h
      exact absurd (h.1 ▸ List.mem_cons_self x xs) (h.1 ▸ h1)
    | cons b bs =>
      simp only [List.cons_append, List.cons.injEq] at h
      obtain ⟨hxb, htail⟩ := h
      have hx : sep ∉ xs := fun hm => h1 (List.mem_cons_of_mem _ hm)
      have hb : sep ∉ bs := fun hm => h2 (List.mem_cons_of_mem _ hm)
      obtain ⟨ha, hr⟩ := ih bs r1 r2 hx hb htail
      exact ⟨by rw [hxb, ha], hr⟩

/-- String concatenation acts as list concatenation on the underlying
character data. -/
theorem strDataAppend (a b : String) : (a ++ b).data = a.data ++ b.data := by
  cases a
  cases b
  rfl

/-- Two strings with the same character data are equal. -/
theorem strDataInj {a b : String} (h : a.data = b.data) : a = b := by
  cases a
  cases b
  exact congrArg String.mk h

/-- The character data of `Topic::key`, in separator-exposed form. -/
theorem topic_key_data (t : Topic) :
    (Topic.key t).data =
      (channelSegment t.channel_type).data ++ ':' ::
        (t.exchange.data ++ ':' ::
          ((marketSegment t.market_type).data ++ ':' ::
            (t.symbol.base.data ++ '-' :: t.symbol.quote.data))) := by
  have hc : (":" : String).data = [':'] := rfl
  have hd : ("-" : String).data = ['-'] := rfl
  simp [Topic.key, Symbol.canonical, strDataAppend, hc, hd]

/-- The channel segment determines the channel type. -/
theorem channelSegment_inj {a b : ChannelType}
    (h : (channelSegment a).data = (channelSegment b).data) : a = b := by
  cases a <;> cases b <;> first | rfl | exact absurd h (by decide)

/-- The market segment determines the market type. -/
theorem marketSegment_inj {a b : MarketType}
    (h : (marketSegment a).data = (marketSegment b).data) : a = b := by
  cases a <;> cases b <;> first | rfl | exact absurd h (by decide)

/-- C1 (amended): `Topic.key` is injective on topics whose exchange id
contains no `:` and whose symbol base contains no `-`; on such topics,
`key t1 = key t2` iff all four components are equal.  Without these
restrictions the claim fails (`topic_key_not_injective`): the key
concatenates raw strings with `:` and `-` separators, so a `:` inside the
exchange id or a `-` inside the base makes the split ambiguous. -/
theorem topic_key_injective_on_clean (t1 t2 : Topic)
    (hex1 : ':' ∉ t1.exchange.data) (hex2 : ':' ∉ t2.exchange.data)
    (hb1 : '-' ∉ t1.symbol.base.data) (hb2 : '-' ∉ t2.symbol.base.data) :
    Topic.key t1 = Topic.key t2 ↔ t1 = t2 := by
  constructor
  · intro h
    have hd : (Topic.key t1).data = (Topic.key t2).data := by rw [h]
    rw [topic_key_data, topic_key_data] at hd
    have hch1 : ':' ∉ (channelSegment t1.channel_type).data := by
      cases t1.channel_type <;> decide
    have hch2 : ':' ∉ (channelSegment t2.channel_type).data := by
      cases t2.channel_type <;> decide
    obtain ⟨hseg, hd⟩ := listSepInj ':' _ _ _ _ hch1 hch2 hd
    obtain ⟨hex, hd⟩ := listSepInj ':' _ _ _ _ hex1 hex2 hd
    have hmk1 : ':' ∉ (marketSegment t1.market_type).data := by
      cases t1.market_type <;> decide
    have hmk2 : ':' ∉ (marketSegment t2.market_type).data := by
      cases t2.market_type <;> decide
    obtain ⟨hmk, hd⟩ := listSepInj ':' _ _ _ _ hmk1 hmk2 hd
    obtain ⟨hbase, hquote⟩ := listSepInj '-' _ _ _ _ hb1 hb2 hd
    obtain ⟨ct1, ex1, mt1, b1, q1⟩ := t1
    obtain ⟨ct2, ex2, mt2, b2, q2⟩ := t2
    simp only at hseg hex hmk hbase hquote hch1 hch2
    have hct := channelSegment_inj hseg
    have hmt := marketSegment_inj hmk
    have hexs := strDataInj hex
    have hbs := strDataInj hbase
    have hqs := strDataInj hquote
    simp [hct, hmt, hexs, hbs, hqs]
  · intro h
    rw [h]

/-- Witness for `topic_key_injective_on_clean` at two concrete topics. -/
theorem topic_key_injective_on_clean_w :
    (':' ∉ ("binance" : String).data) ∧ (':' ∉ ("bybit" : String).data) ∧
    ('-' ∉ ("BTC" : String).data) ∧ ('-' ∉ ("ETH" : String).data) ∧
    (Topic.key (Topic.ticker "binance" MarketType.spot ⟨"BTC", "USDT"⟩) =
        Topic.key (Topic.orderbook "bybit" MarketType.perpetual ⟨"ETH", "USDT"⟩) ↔
      Topic.ticker "binance" MarketType.spot ⟨"BTC", "USDT"⟩ =
        Topic.orderbook "bybit" MarketType.perpetual ⟨"ETH", "USDT"⟩) :=
  ⟨by decide, by decide, by decide, by decide,
    topic_key_injective_on_clean _ _ (by decide) (by decide) (by decide) (by decide)⟩

/-- `broadcastSend` never changes the receiver count. -/
theorem broadcastSend_receiverCount {α : Type} (ch : BroadcastChannel α) (m : α) :
    (broadcastSend ch m).receiverCount = ch.receiverCount := by
  unfold broadcastSend
  split <;> rfl

/-- Updating the entry at a key rewrites exactly that lookup by `f`. -/
theorem assocFind_assocUpdate_self {α : Type} (k : String) (f : α → α)
    (l : List (String × α)) :
    assocFind k (assocUpdate k f l) = (assocFind k l).map f := by
  induction l with
  | nil => rfl
  | cons p rest ih =>
    obtain ⟨a, v⟩ := p
    by_cases hak : a = k
    · subst hak
      simp [assocFind, assocUpdate]
    · simp [assocFind, assocUpdate, hak, ih]

/-- Updating the entry at one key leaves lookups at other keys alone. -/
theorem assocFind_assocUpdate_ne {α : Type} {k q : String} (hkq : k ≠ q) (f : α → α)
    (l : List (String × α)) :
    assocFind q (assocUpdate k f l) = assocFind q l := by
  induction l with
  | nil => rfl
  | cons p rest ih =>
    obtain ⟨a, v⟩ := p
    by_cases hak : a = k
    · subst hak
      simp [assocFind, assocUpdate, hkq, ih]
    · simp [assocFind, assocUpdate, hak, ih]

/-- `publish` never changes any per-topic subscriber count. -/
theorem publish_subscriber_count (h : StreamHub) (t : Topic) (m : StreamMessage)
    (t2 : Topic) :
    StreamHub.subscriber_count (StreamHub.publish h t m) t2 =
      StreamHub.subscriber_count h t2 := by
  unfold StreamHub.publish StreamHub.subscriber_count
  cases hf : assocFind (Topic.key t) h.topics with
  | none => simp [hf]
  | some ch =>
    simp only [hf]
    by_cases hk : Topic.key t = Topic.key t2
    · rw [hk, assocFind_assocUpdate_self]
      cases assocFind (Topic.key t2) h.topics with
      | none => rfl
      | some ch2 => simp [broadcastSend_receiverCount]
    · rw [assocFind_assocUpdate_ne hk]

/-- `publish` never changes the global subscriber count. -/
theorem publish_global_subscriber_count (h : StreamHub) (t : Topic) (m : StreamMessage) :
    StreamHub.global_subscriber_count (StreamHub.publish h t m) =
      StreamHub.global_subscriber_count h := by
  unfold StreamHub.publish StreamHub.global_subscriber_count
  exact broadcastSend_receiverCount h.global (t, m)

/-- `subscribe` adds exactly one subscriber to its topic. -/
theorem subscribe_subscriber_count (h : StreamHub) (t : Topic) :
    StreamHub.subscriber_count (StreamHub.subscribe h t).1 t =
      StreamHub.subscriber_count h t + 1 := by
  unfold StreamHub.subscribe StreamHub.subscriber_count
  cases hf : assocFind (Topic.key t) h.topics with
  | none => simp [hf, assocFind]
  | some ch =>
    simp only [hf]
    rw [assocFind_assocUpdate_self, hf]
    rfl

/-- `subscribe` leaves the topic's channel allocated. -/
theorem subscribe_topic_created (h : StreamHub) (t : Topic) :
    (assocFind (Topic.key t) (StreamHub.subscribe h t).1.topics).isSome = true := by
  cases hf : assocFind (Topic.key t) h.topics with
  | none => simp [StreamHub.subscribe, hf, assocFind]
  | some ch => simp [StreamHub.subscribe, hf, assocFind_assocUpdate_self]

/-- C7: `hub.publish(topic, event)` cannot fail observably — it is a total
function on hub states, and publishing with zero per-topic or zero global
subscribers leaves every subscriber count (hence the hub's usability)
unchanged; `hub.subscribe(topic)` cannot fail — it always returns a
handle, incrementing the topic's count and lazily allocating the
per-topic channel; and a subscriber receive that completes yields one of
event, lagged(n), or closed. -/
theorem hub_failure_semantics :
    (∀ (h : StreamHub) (t : Topic) (m : StreamMessage) (t2 : Topic),
      StreamHub.subscriber_count (StreamHub.publish h t m) t2 =
        StreamHub.subscriber_count h t2) ∧
    (∀ (h : StreamHub) (t : Topic) (m : StreamMessage),
      StreamHub.global_subscriber_count (StreamHub.publish h t m) =
        StreamHub.global_subscriber_count h) ∧
    (∀ (h : StreamHub) (t : Topic),
      StreamHub.subscriber_count (StreamHub.subscribe h t).1 t =
        StreamHub.subscriber_count h t + 1) ∧
    (∀ (h : StreamHub) (t : Topic),
      (assocFind (Topic.key t) (StreamHub.subscribe h t).1.topics).isSome = true) ∧
    (∀ (α : Type) (ch : BroadcastChannel α) (pos : Nat) (senderClosed : Bool)
        (r : RecvResult α) (pos2 : Nat),
      broadcastRecv ch pos senderClosed = some (r, pos2) →
      (∃ m2, r = RecvResult.event m2) ∨ (∃ n, r = RecvResult.lagged n) ∨
        r = RecvResult.closed) := by
  refine ⟨publish_subscriber_count, publish_global_subscriber_count,
    subscribe_subscriber_count, subscribe_topic_created, ?_⟩
  intro α ch pos senderClosed r pos2 _
  cases r with
  | event m2 => exact Or.inl ⟨m2, rfl⟩
  | lagged n => exact Or.inr (Or.inl ⟨n, rfl⟩)
  | closed => exact Or.inr (Or.inr rfl)

/-- Witness for `hub_failure_semantics`: a receive on a concrete one-message
channel completes with an event. -/
theorem hub_failure_semantics_w :
    broadcastRecv (BroadcastChannel.mk 1 [StreamMessage.info "x"]) 0 false =
      some (RecvResult.event (StreamMessage.info "x"), 1) ∧
    ((∃ m2, (RecvResult.event (StreamMessage.info "x") : RecvResult StreamMessage) =
        RecvResult.event m2) ∨
      (∃ n, (RecvResult.event (StreamMessage.info "x") : RecvResult StreamMessage) =
        RecvResult.lagged n) ∨
      (RecvResult.event (StreamMessage.info "x") : RecvResult StreamMessage) =
        RecvResult.closed) :=
  ⟨by decide,
    hub_failure_semantics.2.2.2.2 StreamMessage
      (BroadcastChannel.mk 1 [StreamMessage.info "x"]) 0 false
      (RecvResult.event (StreamMessage.info "x")) 1 (by decide)⟩

/-- Reading the market slot just written. -/
theorem wsClients_get_set_self (c : WsClients) (mk : MarketType) (v : Option Unit) :
    (c.set mk v).get mk = v := by
  cases mk <;> rfl

/-- Reading a market slot other than the one written. -/
theorem wsClients_get_set_ne (c : WsClients) {mk mk2 : MarketType} (hne : mk2 ≠ mk)
    (v : Option Unit) : (c.set mk v).get mk2 = c.get mk2 := by
  cases mk <;> cases mk2 <;> first | rfl | exact absurd rfl hne

/-- C6: after publishing an event, both adapters run
`disconnect_if_no_subscribers`, which queries the hub's global and
per-topic subscriber counts; when both are zero the connection handle for
the topic's market is cleared (taken to `None` and closed), other
markets' handles are untouched, and when either count is non-zero the
state is left entirely unchanged.  The last two conjuncts tie this to the
ticker pipeline: a successful `handle_ticker` with no remaining
subscribers ends with that market disconnected. -/
theorem idle_teardown :
    (∀ (h : StreamHub) (clients : WsClients) (t : Topic),
      StreamHub.global_subscriber_count h = 0 → StreamHub.subscriber_count h t = 0 →
      (binanceDisconnectIfNoSubscribers (some h) clients t).get t.market_type = none ∧
      (bybitDisconnectIfNoSubscribers (some h) clients t).get t.market_type = none) ∧
    (∀ (h : StreamHub) (clients : WsClients) (t : Topic) (mk : MarketType),
      mk ≠ t.market_type →
      (binanceDisconnectIfNoSubscribers (some h) clients t).get mk = clients.get mk ∧
      (bybitDisconnectIfNoSubscribers (some h) clients t).get mk = clients.get mk) ∧
    (∀ (h : StreamHub) (clients : WsClients) (t : Topic),
      ¬(StreamHub.global_subscriber_count h = 0 ∧ StreamHub.subscriber_count h t = 0) →
      binanceDisconnectIfNoSubscribers (some h) clients t = clients ∧
      bybitDisconnectIfNoSubscribers (some h) clients t = clients) ∧
    (∀ (hub : StreamHub) (clients : WsClients) (mapper : SymbolMapper)
        (mk : MarketType) (t : BinanceTicker) (nowMillis : Int) (hub2 : StreamHub)
        (clients2 : WsClients) (out : Ticker),
      binanceOnTickerEvent hub clients mapper mk t nowMillis =
        Except.ok (hub2, clients2, out) →
      StreamHub.global_subscriber_count hub = 0 →
      StreamHub.subscriber_count hub (Topic.ticker "binance" mk out.symbol) = 0 →
      clients2.get mk = none) ∧
    (∀ (hub : StreamHub) (clients : WsClients) (mk : MarketType) (t : BybitTicker)
        (ts : Nat) (hub2 : StreamHub) (clients2 : WsClients) (out : Ticker),
      bybitOnTickerEvent hub clients mk t ts = Except.ok (hub2, clients2, out) →
      StreamHub.global_subscriber_count hub = 0 →
      StreamHub.subscriber_count hub (Topic.ticker "bybit" mk out.symbol) = 0 →
      clients2.get mk = none) := by
  refine ⟨?_, ?_, ?_, ?_, ?_⟩
  · intro h clients t hg h0
    constructor <;>
      simp [binanceDisconnectIfNoSubscribers, bybitDisconnectIfNoSubscribers, hg, h0,
        wsClients_get_set_self]
  · intro h clients t mk hne
    constructor
    · by_cases hc : (StreamHub.global_subscriber_count h == 0 &&
          StreamHub.subscriber_count h t == 0) = true
      · simp [binanceDisconnectIfNoSubscribers, hc, wsClients_get_set_ne clients hne none]
      · simp [binanceDisconnectIfNoSubscribers, hc]
    · by_cases hc : (StreamHub.global_subscriber_count h == 0 &&
          StreamHub.subscriber_count h t == 0) = true
      · simp [bybitDisconnectIfNoSubscribers, hc, wsClients_get_set_ne clients hne none]
      · simp [bybitDisconnectIfNoSubscribers, hc]
  · intro h clients t hcond
    have hb : (StreamHub.global_subscriber_count h == 0 &&
        StreamHub.subscriber_count h t == 0) = false := by
      rcases Nat.eq_zero_or_pos (StreamHub.global_subscriber_count h) with hg | hg
      · rcases Nat.eq_zero_or_pos (StreamHub.subscriber_count h t) with h0 | h0
        · exact absurd ⟨hg, h0⟩ hcond
        · simp [Nat.pos_iff_ne_zero.mp h0]
      · simp [Nat.pos_iff_ne_zero.mp hg]
    constructor <;>
      simp [binanceDisconnectIfNoSubscribers, bybitDisconnectIfNoSubscribers, hb]
  · intro hub clients mapper mk t nowMillis hub2 clients2 out hrun hg h0
    unfold binanceOnTickerEvent at hrun
    cases hh : binanceHandleTicker mapper mk t nowMillis with
    | error e => rw [hh] at hrun; cases hrun
    | ok out2 =>
      rw [hh] at hrun
      simp only [Except.ok.injEq, Prod.mk.injEq] at hrun
      obtain ⟨hhub, hcl, hout⟩ := hrun
      subst hout
      subst hcl
      simp only [Topic.ticker] at h0
      simp [binanceDisconnectIfNoSubscribers, publish_global_subscriber_count,
        publish_subscriber_count, hg, h0, Topic.ticker, wsClients_get_set_self]
  · intro hub clients mk t ts hub2 clients2 out hrun hg h0
    unfold bybitOnTickerEvent at hrun
    cases hh : bybitHandleTicker mk t ts with
    | error e => rw [hh] at hrun; cases hrun
    | ok out2 =>
      rw [hh] at hrun
      simp only [Except.ok.injEq, Prod.mk.injEq] at hrun
      obtain ⟨hhub, hcl, hout⟩ := hrun
      subst hout
      subst hcl
      simp only [Topic.ticker] at h0
      simp [bybitDisconnectIfNoSubscribers, publish_global_subscriber_count,
        publish_subscriber_count, hg, h0, Topic.ticker, wsClients_get_set_self]

/-- Witness for `idle_teardown`: a fresh hub has zero counts, so a ticker
topic's market slot is cleared on both adapters. -/
theorem idle_teardown_w :
    StreamHub.global_subscriber_count StreamHub.new = 0 ∧
    StreamHub.subscriber_count StreamHub.new
      (Topic.ticker "binance" MarketType.spot ⟨"BTC", "USDT"⟩) = 0 ∧
    ((binanceDisconnectIfNoSubscribers (some StreamHub.new) (WsClients.mk (some ()) (some ()))
        (Topic.ticker "binance" MarketType.spot ⟨"BTC", "USDT"⟩)).get MarketType.spot = none ∧
      (bybitDisconnectIfNoSubscribers (some StreamHub.new) (WsClients.mk (some ()) (some ()))
        (Topic.ticker "binance" MarketType.spot ⟨"BTC", "USDT"⟩)).get MarketType.spot = none) :=
  ⟨rfl, rfl,
    idle_teardown.1 StreamHub.new (WsClients.mk (some ()) (some ()))
      (Topic.ticker "binance" MarketType.spot ⟨"BTC", "USDT"⟩) rfl rfl⟩

/-- C1 (counterexample): two distinct topics with equal keys.  The symbols
`A-B / C` and `A / B-C` both canonicalize to `A-B-C`, so both topics have
the key `ticker:e:spot:A-B-C` while their symbol components differ;
`Topic::new` and the topic struct accept arbitrary strings, so nothing in
the code rules these values out. -/
theorem topic_key_not_injective :
    Topic.key ⟨ChannelType.ticker, "e", MarketType.spot, ⟨"A-B", "C"⟩⟩ =
      Topic.key ⟨ChannelType.ticker, "e", MarketType.spot, ⟨"A", "B-C"⟩⟩ ∧
    (⟨ChannelType.ticker, "e", MarketType.spot, ⟨"A-B", "C"⟩⟩ : Topic) ≠
      ⟨ChannelType.ticker, "e", MarketType.spot, ⟨"A", "B-C"⟩⟩ := by
  exact ⟨rfl, by decide⟩

/-- C2 (amended): for venue symbols not found in the pre-populated
mapping, Bybit's `parse_symbol` strips the first matching quote suffix in
the full ordered list `[USDT, USDC, BUSD, TUSD, BTC, ETH, USD]` (applied
to the preprocessed symbol) and errors when none matches, while Binance's
fallback implements only the five-element list
`[USDT, USDC, TUSD, BTC, ETH]` — `BUSD` and `USD` are never stripped (see
`binance_busd_not_stripped`) — and errors when none of those matches. -/
theorem parse_symbol_fallback :
    (∀ s : String, mapperToCanonical defaultSymbolMapper "binance" s = none →
      binanceParseSymbol defaultSymbolMapper s =
        (match stripKnownQuote ["USDT", "USDC", "TUSD", "BTC", "ETH"] s with
          | some sym => Except.ok sym
          | none => Except.error ("Unsupported symbol format: " ++ s))) ∧
    (∀ s : String,
      bybitParseSymbol s =
        (match stripKnownQuote ["USDT", "USDC", "BUSD", "TUSD", "BTC", "ETH", "USD"]
            (bybitPreprocess s) with
          | some sym => Except.ok sym
          | none => Except.error ("Unknown Bybit symbol format: " ++ s))) := by
  constructor
  · intro s hmap
    simp only [binanceParseSymbol, hmap]
    cases h1 : strEndsWith s "USDT" <;> cases h2 : strEndsWith s "USDC" <;>
      cases h3 : strEndsWith s "TUSD" <;> cases h4 : strEndsWith s "BTC" <;>
        cases h5 : strEndsWith s "ETH" <;>
          simp [stripKnownQuote, h1, h2, h3, h4, h5,
            show ("USDT" : String).length = 4 from rfl,
            show ("USDC" : String).length = 4 from rfl,
            show ("TUSD" : String).length = 4 from rfl,
            show ("BTC" : String).length = 3 from rfl,
            show ("ETH" : String).length = 3 from rfl]
  · intro s
    simp only [bybitParseSymbol]
    cases h1 : strEndsWith (bybitPreprocess s) "USDT" <;>
      cases h2 : strEndsWith (bybitPreprocess s) "USDC" <;>
        cases h3 : strEndsWith (bybitPreprocess s) "BUSD" <;>
          cases h4 : strEndsWith (bybitPreprocess s) "TUSD" <;>
            cases h5 : strEndsWith (bybitPreprocess s) "BTC" <;>
              cases h6 : strEndsWith (bybitPreprocess s) "ETH" <;>
                cases h7 : strEndsWith (bybitPreprocess s) "USD" <;>
                  simp [stripKnownQuote, h1, h2, h3, h4, h5, h6, h7,
                    show ("USDT" : String).length = 4 from rfl,
                    show ("USDC" : String).length = 4 from rfl,
                    show ("BUSD" : String).length = 4 from rfl,
                    show ("TUSD" : String).length = 4 from rfl,
                    show ("BTC" : String).length = 3 from rfl,
                    show ("ETH" : String).length = 3 from rfl,
                    show ("USD" : String).length = 3 from rfl]

/-- Witness for `parse_symbol_fallback`: `XRPUSDT` is not in the default
mapping, and the Binance fallback agrees with the spec list there. -/
theorem parse_symbol_fallback_w :
    mapperToCanonical defaultSymbolMapper "binance" "XRPUSDT" = none ∧
    binanceParseSymbol defaultSymbolMapper "XRPUSDT" =
      (match stripKnownQuote ["USDT", "USDC", "TUSD", "BTC", "ETH"] "XRPUSDT" with
        | some sym => Except.ok sym
        | none => Except.error ("Unsupported symbol format: " ++ "XRPUSDT")) :=
  ⟨by decide, parse_symbol_fallback.1 "XRPUSDT" (by decide)⟩

/-- C2 (counterexample): `XYZBUSD` is not in the pre-populated mapping
and carries the quote suffix `BUSD` from the claimed ordered list, so the
claim requires `Ok(Symbol{XYZ, BUSD})`; Binance's `parse_symbol` has no
`BUSD` (or `USD`) arm and returns an error instead. -/
theorem binance_busd_not_stripped :
    mapperToCanonical defaultSymbolMapper "binance" "XYZBUSD" = none ∧
    stripKnownQuote ["USDT", "USDC", "BUSD", "TUSD", "BTC", "ETH", "USD"] "XYZBUSD" =
      some ⟨"XYZ", "BUSD"⟩ ∧
    binanceParseSymbol defaultSymbolMapper "XYZBUSD" =
      Except.error "Unsupported symbol format: XYZBUSD" := by
  exact ⟨by decide, by decide, by decide⟩

/-- `selectField` returns the fallback when both option fields are absent
or empty. -/
theorem selectField_absent {p s : Option String} (hp : p = none ∨ p = some "")
    (hs : s = none ∨ s = some "") (fallback : String) :
    selectField p s fallback = fallback := by
  rcases hp with hp | hp <;> rcases hs with hs | hs <;>
    simp [selectField, hp, hs, optNonEmpty]

/-- `"0"` parses to the decimal zero. -/
theorem parseDec_zero : parseDec "0" = Except.ok (Dec.mk 0 0) := by decide

/-- C3: in both adapters' ticker normalization, a missing-or-empty best
bid (or ask) price makes the published bid (or ask) equal the published
last trade price, and a missing best bid (or ask) size makes the
published size zero; in particular the Bybit frame with `bid1Price = ""`
(and no legacy `bidPrice`) publishes `bid = lastPrice` and
`bidSize = 0`. -/
theorem missing_bid_ask_substitution :
    (∀ (mk : MarketType) (t : BybitTicker) (ts : Nat) (out : Ticker),
      (t.bid1_price = none ∨ t.bid1_price = some "") →
      (t.bid_price = none ∨ t.bid_price = some "") →
      bybitHandleTicker mk t ts = Except.ok out → out.bid = out.last) ∧
    (∀ (mk : MarketType) (t : BybitTicker) (ts : Nat) (out : Ticker),
      (t.ask1_price = none ∨ t.ask1_price = some "") →
      (t.ask_price = none ∨ t.ask_price = some "") →
      bybitHandleTicker mk t ts = Except.ok out → out.ask = out.last) ∧
    (∀ (mk : MarketType) (t : BybitTicker) (ts : Nat) (out : Ticker),
      t.bid1_size = none → t.bid_size = none →
      bybitHandleTicker mk t ts = Except.ok out → out.bid_size = Dec.mk 0 0) ∧
    (∀ (mk : MarketType) (t : BybitTicker) (ts : Nat) (out : Ticker),
      t.ask1_size = none → t.ask_size = none →
      bybitHandleTicker mk t ts = Except.ok out → out.ask_size = Dec.mk 0 0) ∧
    (∀ (mapper : SymbolMapper) (mk : MarketType) (t : BinanceTicker)
        (nowMillis : Int) (out : Ticker),
      (t.b = none ∨ t.b = some "") →
      binanceHandleTicker mapper mk t nowMillis = Except.ok out → out.bid = out.last) ∧
    (∀ (mapper : SymbolMapper) (mk : MarketType) (t : BinanceTicker)
        (nowMillis : Int) (out : Ticker),
      (t.a = none ∨ t.a = some "") →
      binanceHandleTicker mapper mk t nowMillis = Except.ok out → out.ask = out.last) ∧
    (∀ (mapper : SymbolMapper) (mk : MarketType) (t : BinanceTicker)
        (nowMillis : Int) (out : Ticker),
      t.best_bid_qty = none →
      binanceHandleTicker mapper mk t nowMillis = Except.ok out →
      out.bid_size = Dec.mk 0 0) ∧
    (∀ (mapper : SymbolMapper) (mk : MarketType) (t : BinanceTicker)
        (nowMillis : Int) (out : Ticker),
      t.best_ask_qty = none →
      binanceHandleTicker mapper mk t nowMillis = Except.ok out →
      out.ask_size = Dec.mk 0 0) ∧
    (bybitHandleTicker MarketType.spot
        (BybitTicker.mk "BTCUSDT" "17216.00" (some "") none none none none none none none)
        1673272861686 =
      Except.ok (Ticker.mk 1673272861686 "bybit" MarketType.spot (Symbol.mk "BTC" "USDT")
        (Dec.mk 17216 0) (Dec.mk 17216 0) (Dec.mk 17216 0) (Dec.mk 0 0) (Dec.mk 0 0))) := by
  refine ⟨?_, ?_, ?_, ?_, ?_, ?_, ?_, ?_, ?_⟩
  · intro mk t ts out hb1 hbp hrun
    have hsel := selectField_absent hb1 hbp t.last_price
    unfold bybitHandleTicker at hrun
    rw [hsel] at hrun
    cases hl : parseDec t.last_price <;> simp only [hl] at hrun <;>
      repeat' split at hrun
    all_goals first
      | exact Except.noConfusion hrun
      | (injection hrun with h2; subst h2; rfl)
  · intro mk t ts out ha1 hap hrun
    have hsel := selectField_absent ha1 hap t.last_price
    unfold bybitHandleTicker at hrun
    rw [hsel] at hrun
    cases hl : parseDec t.last_price <;> simp only [hl] at hrun <;>
      repeat' split at hrun
    all_goals first
      | exact Except.noConfusion hrun
      | (injection hrun with h2; subst h2; rfl)
  · intro mk t ts out hb1 hbs hrun
    have hsel := selectField_absent (Or.inl hb1) (Or.inl hbs) "0"
    unfold bybitHandleTicker at hrun
    rw [hsel] at hrun
    simp only [parseDec_zero] at hrun
    repeat' split at hrun
    all_goals first
      | exact Except.noConfusion hrun
      | (injection hrun with h2; subst h2; rfl)
  · intro mk t ts out ha1 has hrun
    have hsel := selectField_absent (Or.inl ha1) (Or.inl has) "0"
    unfold bybitHandleTicker at hrun
    rw [hsel] at hrun
    simp only [parseDec_zero] at hrun
    repeat' split at hrun
    all_goals first
      | exact Except.noConfusion hrun
      | (injection hrun with h2; subst h2; rfl)
  · intro mapper mk t nowMillis out hb hrun
    unfold binanceHandleTicker at hrun
    rcases hb with hb | hb <;>
      · simp only [hb, optNonEmpty, if_pos] at hrun
        repeat' split at hrun
        all_goals first
          | exact Except.noConfusion hrun
          | (injection hrun with h2; subst h2; rfl)
  · intro mapper mk t nowMillis out ha hrun
    unfold binanceHandleTicker at hrun
    rcases ha with ha | ha <;>
      · simp only [ha, optNonEmpty, if_pos] at hrun
        repeat' split at hrun
        all_goals first
          | exact Except.noConfusion hrun
          | (injection hrun with h2; subst h2; rfl)
  · intro mapper mk t nowMillis out hq hrun
    unfold binanceHandleTicker at hrun
    simp only [hq, Option.getD_none, parseDec_zero] at hrun
    repeat' split at hrun
    all_goals first
      | exact Except.noConfusion hrun
      | (injection hrun with h2; subst h2; rfl)
  · intro mapper mk t nowMillis out hq hrun
    unfold binanceHandleTicker at hrun
    simp only [hq, Option.getD_none, parseDec_zero] at hrun
    repeat' split at hrun
    all_goals first
      | exact Except.noConfusion hrun
      | (injection hrun with h2; subst h2; rfl)
  · decide

/-- Witness for `missing_bid_ask_substitution` at the concrete Bybit
frame of scenario S3. -/
theorem missing_bid_ask_substitution_w :
    ((some "" : Option String) = none ∨ (some "" : Option String) = some "") ∧
    ((none : Option String) = none ∨ (none : Option String) = some "") ∧
    bybitHandleTicker MarketType.spot
        (BybitTicker.mk "BTCUSDT" "17216.00" (some "") none none none none none none none)
        1673272861686 =
      Except.ok (Ticker.mk 1673272861686 "bybit" MarketType.spot (Symbol.mk "BTC" "USDT")
        (Dec.mk 17216 0) (Dec.mk 17216 0) (Dec.mk 17216 0) (Dec.mk 0 0) (Dec.mk 0 0)) ∧
    (Ticker.mk 1673272861686 "bybit" MarketType.spot (Symbol.mk "BTC" "USDT")
        (Dec.mk 17216 0) (Dec.mk 17216 0) (Dec.mk 17216 0) (Dec.mk 0 0) (Dec.mk 0 0)).bid =
      (Ticker.mk 1673272861686 "bybit" MarketType.spot (Symbol.mk "BTC" "USDT")
        (Dec.mk 17216 0) (Dec.mk 17216 0) (Dec.mk 17216 0) (Dec.mk 0 0) (Dec.mk 0 0)).last :=
  ⟨Or.inr rfl, Or.inl rfl, by decide,
    missing_bid_ask_substitution.1 MarketType.spot
      (BybitTicker.mk "BTCUSDT" "17216.00" (some "") none none none none none none none)
      1673272861686
      (Ticker.mk 1673272861686 "bybit" MarketType.spot (Symbol.mk "BTC" "USDT")
        (Dec.mk 17216 0) (Dec.mk 17216 0) (Dec.mk 17216 0) (Dec.mk 0 0) (Dec.mk 0 0))
      (Or.inr rfl) (Or.inl rfl) (by decide)⟩

/-- C4 (counterexample): a Subscribe naming only the unregistered venue
`kraken` produces no adapter call and a single `Info` summary — no
`Error` event is sent for the unknown venue, the session only logs a
warning (server.rs, lines 190-196). -/
theorem unknown_venue_no_error_event :
    handleClientMessage (AppStateModel.mk ["binance", "bybit"])
        (ClientMessage.subscribe
          [Channel.mk ChannelType.ticker "kraken" MarketType.spot (Symbol.mk "BTC" "USDT") none]) =
      ([], [StreamMessage.info "Subscribed to 1 channels across 1 exchanges"]) ∧
    countErrors (handleClientMessage (AppStateModel.mk ["binance", "bybit"])
        (ClientMessage.subscribe
          [Channel.mk ChannelType.ticker "kraken" MarketType.spot (Symbol.mk "BTC" "USDT") none])).2 = 0 := by
  exact ⟨by decide, by decide⟩

/-- C4 (amended): for every Subscribe request the session invokes
`adapter.subscribe` exactly for the venue groups present in the registry,
silently skips unknown venues (a server-side warning only — no client
notification), and always replies with a single `Info` summarizing the
requested channel count and the number of venue groups; no `Error` event
is ever emitted on this path. -/
theorem subscribe_dispatch_behavior :
    ∀ (st : AppStateModel) (channels : List Channel),
      (handleClientMessage st (ClientMessage.subscribe channels)).2 =
        [StreamMessage.info ("Subscribed to " ++ toString channels.length ++
          " channels across " ++ toString (groupByExchange channels).length ++
          " exchanges")] ∧
      countErrors (handleClientMessage st (ClientMessage.subscribe channels)).2 = 0 ∧
      (∀ g, g ∈ (handleClientMessage st (ClientMessage.subscribe channels)).1 ↔
        g ∈ groupByExchange channels ∧ g.1 ∈ st.exchanges) := by
  intro st channels
  refine ⟨rfl, rfl, ?_⟩
  intro g
  simp [handleClientMessage, List.mem_filter]

/-- C5 (counterexample): the forwarder stops at a lagged receive — the
event available right after the lag is not forwarded, because the
forwarder's receive loop breaks on every `Err`, `Lagged` included
(server.rs, lines 61-64). -/
theorem lag_terminates_forwarder :
    forwardLoop [RecvResult.lagged 1,
      RecvResult.event (Topic.ticker "binance" MarketType.spot ⟨"BTC", "USDT"⟩,
        StreamMessage.info "next")] = [] ∧
    (Topic.ticker "binance" MarketType.spot ⟨"BTC", "USDT"⟩,
        StreamMessage.info "next") ∉
      forwardLoop [RecvResult.lagged 1,
        RecvResult.event (Topic.ticker "binance" MarketType.spot ⟨"BTC", "USDT"⟩,
          StreamMessage.info "next")] := by
  exact ⟨rfl, by decide⟩

/-- C5 (amended): the outbound forwarder forwards events until the first
receive error and then terminates; a lagged indication ends the loop
exactly like closure, and no later event is forwarded. -/
theorem forwarder_stops_at_first_error :
    ∀ (ps : List (Topic × StreamMessage)) (n : Nat)
      (rest : List (RecvResult (Topic × StreamMessage))),
      forwardLoop (ps.map RecvResult.event ++ RecvResult.lagged n :: rest) = ps ∧
      forwardLoop (ps.map RecvResult.event ++ RecvResult.closed :: rest) = ps := by
  intro ps n rest
  induction ps with
  | nil => exact ⟨rfl, rfl⟩
  | cons p ps2 ih =>
    exact ⟨by simpa [forwardLoop] using ih.1, by simpa [forwardLoop] using ih.2⟩

/-- C9: an unparseable text frame makes the session send exactly one
`Error` describing the failure and keep running; a following well-formed
`Ping` on the same session is answered with `Info "Pong"`, and the rest
of the stream is processed as usual. -/
theorem invalid_json_then_ping :
    ∀ (st : AppStateModel) (e : String) (rest : List InFrame),
      sessionLoop st (InFrame.text (Except.error e) ::
          InFrame.text (Except.ok ClientMessage.ping) :: rest) =
        OutItem.msg (StreamMessage.error ("Invalid message format: " ++ e)) ::
          OutItem.msg (StreamMessage.info "Pong") :: sessionLoop st rest := by
  intro st e rest
  simp [sessionLoop, handleClientMessage]

/-- C10: on an empty channel list, both adapters' subscribe and
unsubscribe return `Ok` immediately: no connection is opened or closed,
no frame is sent upstream, and the per-market connection state is
returned unchanged — whatever the network would have done. -/
theorem empty_channel_lists_noop :
    ∀ (env : NetEnv) (st : WsClients),
      binanceSubscribeInternal env st [] = Except.ok (st, []) ∧
      binanceUnsubscribeInternal env st [] = Except.ok (st, []) ∧
      bybitSubscribeInternal env st [] = Except.ok (st, []) ∧
      bybitUnsubscribeInternal env st [] = Except.ok (st, []) := by
  intro env st
  exact ⟨rfl, rfl, rfl, rfl⟩

end CryptoDash
